import Mathlib

/-!
Collision-and-Restitution: the simulation kernel of `Main.cpp`.

A shallow embedding of the simulation core of `src/Main.cpp`
(`updateCircles`, `checkCollision`, `resolveCollision`, and the right-click
branch of `mouse_button_callback`) and the properties of it that the
specification states.

Conventions of the embedding.

* The source computes in `float`.  The embedding is over an arbitrary linearly
  ordered field `K` (exact arithmetic): the definitions are computable as soon
  as the operations of `K` are (for instance over `ℚ`), and every statement can
  be read over `ℝ`.  The decimal constants of the source (`0.9f`, `0.2f`) are
  the exact fractions `9/10` and `2/10`.
* `glm::length v` is `sqrt (dot v v)`.  The library square root is not part of
  the repository; it is the parameter `sqrt : K → K` of the definitions that
  use it, and what the code does is decided by the value it returns.  In
  `float` the computed length of a non-zero vector is `0` when its squared
  length underflows, and the guard of `resolveCollision` then fires for
  distinct centres.  The theorems on `resolveCollision` and on the collision
  passes are therefore stated on the computed length: they say what happens
  when it is zero, and what happens when it is non-zero and equal to the
  Euclidean length at the vectors involved (`ExactLength`).  `underflowSqrt`
  is a square root with that underflow; `IsSqrt sqrt` (an exact root
  everywhere) is only used for concrete examples over the reals.
* The mutable globals (`CIRCLE_RADIUS`, `GRAVITY`, ...) are the fields of
  `Params`; the global `circles` vector is a `List (Circle K)` passed in and
  returned.
-/

namespace CollisionRestitution

/-! ## Data model -/

/-- Two-component vector (`glm::vec2`). -/
@[ext]
structure Vec2 (K : Type) where
  x : K
  y : K
deriving DecidableEq

/-- Three-component vector (`glm::vec3`), used only for the colour. -/
structure Vec3 (K : Type) where
  r : K
  g : K
  b : K
deriving DecidableEq

/-- The body of the simulation (`struct Circle`). -/
structure Circle (K : Type) where
  position : Vec2 K
  velocity : Vec2 K
  color : Vec3 K
deriving DecidableEq

/-- The global simulation parameters of `Main.cpp` (lines 21-28). -/
structure Params (K : Type) where
  CIRCLE_RADIUS : K
  GRAVITY : K
  TIME_STEP : K
  BOUNCE_DAMPING : K
  COLLISION_DAMPING : K
  FRICTION : K
  energyLossEnabled : Bool

namespace Vec2

variable {K : Type} [LinearOrderedField K]

/-- Componentwise sum (`operator+`). -/
def add (u v : Vec2 K) : Vec2 K := ⟨u.x + v.x, u.y + v.y⟩

/-- Componentwise difference (`operator-`). -/
def sub (u v : Vec2 K) : Vec2 K := ⟨u.x - v.x, u.y - v.y⟩

instance : Add (Vec2 K) := ⟨add⟩
instance : Sub (Vec2 K) := ⟨sub⟩

/-- Product with a scalar (`scalar * vec2` and `vec2 * scalar`). -/
def scale (k : K) (v : Vec2 K) : Vec2 K := ⟨k * v.x, k * v.y⟩

/-- Quotient by a scalar (`vec2 /= scalar`). -/
def divScalar (v : Vec2 K) (d : K) : Vec2 K := ⟨v.x / d, v.y / d⟩

/-- Quotient by a scalar with the divisor checked: `none` for a zero divisor. -/
def divChecked (v : Vec2 K) (d : K) : Option (Vec2 K) :=
  if d = 0 then none else some (divScalar v d)

/-- Scalar product (`glm::dot`). -/
def dot (u v : Vec2 K) : K := u.x * v.x + u.y * v.y

/-- Euclidean norm (`glm::length`): the square root of `dot v v`. -/
def length (sqrt : K → K) (v : Vec2 K) : K := sqrt (dot v v)

/-- Euclidean distance (`glm::distance`): the length of the difference. -/
def distance (sqrt : K → K) (p q : Vec2 K) : K := length sqrt (p - q)

end Vec2

section Kernel

variable {K : Type} [LinearOrderedField K]

/-- What the theorems ask of the square root on non-negative arguments: it
returns the non-negative root. -/
def IsSqrt (sqrt : K → K) : Prop :=
  ∀ x : K, 0 ≤ x → 0 ≤ sqrt x ∧ sqrt x * sqrt x = x

/-! ## Body store: removal by proximity (`mouse_button_callback`, lines 219-225) -/

/-- The right-click branch: `std::remove_if` with the predicate
`glm::distance(circle.position, vec2(x, y)) < CIRCLE_RADIUS`, followed by
`erase`.  The elements that do not satisfy the predicate are kept, in order. -/
def removeNear (sqrt : K → K) (P : Params K) (p : Vec2 K) :
    List (Circle K) → List (Circle K)
  | [] => []
  | c :: cs =>
    if Vec2.distance sqrt c.position p < P.CIRCLE_RADIUS then removeNear sqrt P p cs
    else c :: removeNear sqrt P p cs

/-! ## Step engine: `updateCircles`, `checkCollision`, `resolveCollision` -/

/-- Lines 239-241: gravity changes the vertical velocity, only when non-zero. -/
def applyGravity (P : Params K) (c : Circle K) : Circle K :=
  if P.GRAVITY ≠ 0 then
    { c with velocity := ⟨c.velocity.x, c.velocity.y + P.GRAVITY * P.TIME_STEP⟩ }
  else c

/-- Line 243: `circle.position += circle.velocity * TIME_STEP`. -/
def moveCircle (P : Params K) (c : Circle K) : Circle K :=
  { c with position := c.position + Vec2.scale P.TIME_STEP c.velocity }

/-- Lines 246-248: friction, only if energy loss is enabled. -/
def applyFriction (P : Params K) (c : Circle K) : Circle K :=
  if P.energyLossEnabled then { c with velocity := Vec2.scale P.FRICTION c.velocity } else c

/-- Lines 251-254: the wall at `x = -1`. -/
def wallLeft (P : Params K) (c : Circle K) : Circle K :=
  if c.position.x - P.CIRCLE_RADIUS < -1 then
    { c with position := ⟨-1 + P.CIRCLE_RADIUS, c.position.y⟩,
             velocity := ⟨c.velocity.x * -P.BOUNCE_DAMPING, c.velocity.y⟩ }
  else c

/-- Lines 255-258: the wall at `x = 1`. -/
def wallRight (P : Params K) (c : Circle K) : Circle K :=
  if c.position.x + P.CIRCLE_RADIUS > 1 then
    { c with position := ⟨1 - P.CIRCLE_RADIUS, c.position.y⟩,
             velocity := ⟨c.velocity.x * -P.BOUNCE_DAMPING, c.velocity.y⟩ }
  else c

/-- Lines 259-262: the wall at `y = -1`. -/
def wallBottom (P : Params K) (c : Circle K) : Circle K :=
  if c.position.y - P.CIRCLE_RADIUS < -1 then
    { c with position := ⟨c.position.x, -1 + P.CIRCLE_RADIUS⟩,
             velocity := ⟨c.velocity.x, c.velocity.y * -P.BOUNCE_DAMPING⟩ }
  else c

/-- Lines 263-266: the wall at `y = 1`. -/
def wallTop (P : Params K) (c : Circle K) : Circle K :=
  if c.position.y + P.CIRCLE_RADIUS > 1 then
    { c with position := ⟨c.position.x, 1 - P.CIRCLE_RADIUS⟩,
             velocity := ⟨c.velocity.x, c.velocity.y * -P.BOUNCE_DAMPING⟩ }
  else c

/-- The body of the first loop of `updateCircles` (lines 238-266) for one
circle: gravity, Euler step, friction, then the four wall checks in source
order. -/
def stepCircle (P : Params K) (c : Circle K) : Circle K :=
  wallTop P (wallBottom P (wallRight P (wallLeft P
    (applyFriction P (moveCircle P (applyGravity P c))))))

/-- `checkCollision` (lines 283-286). -/
def checkCollision (sqrt : K → K) (P : Params K) (a b : Circle K) : Bool :=
  let distance := Vec2.length sqrt (a.position - b.position)
  decide (distance < 2 * P.CIRCLE_RADIUS)

/-- `resolveCollision` (lines 289-319): the pair of circles after the call. -/
def resolveCollision (sqrt : K → K) (P : Params K) (a b : Circle K) :
    Circle K × Circle K :=
  let collisionNormal := b.position - a.position
  let distance := Vec2.length sqrt collisionNormal
  if distance = 0 then (a, b)
  else
    let collisionNormal := Vec2.divScalar collisionNormal distance
    let overlap := 2 * P.CIRCLE_RADIUS - distance
    let correction := Vec2.scale (9 / 10 * overlap) collisionNormal
    let pa := a.position - correction
    let pb := b.position + correction
    let relativeVelocity := b.velocity - a.velocity
    let impulse := Vec2.dot relativeVelocity collisionNormal
    if P.energyLossEnabled then
      let dampingFactor : K := 2 / 10
      let impulseVector := Vec2.scale (2 * dampingFactor * impulse) collisionNormal
      ({ a with position := pa, velocity := a.velocity + impulseVector },
       { b with position := pb, velocity := b.velocity - impulseVector })
    else
      ({ a with position := pa }, { b with position := pb })

/-- `resolveCollision` with the division `collisionNormal /= distance` checked:
`none` if that division is reached with a zero divisor. -/
def resolveCollisionChecked (sqrt : K → K) (P : Params K) (a b : Circle K) :
    Option (Circle K × Circle K) :=
  let collisionNormal := b.position - a.position
  let distance := Vec2.length sqrt collisionNormal
  if distance = 0 then some (a, b)
  else
    (Vec2.divChecked collisionNormal distance).map fun collisionNormal =>
      let overlap := 2 * P.CIRCLE_RADIUS - distance
      let correction := Vec2.scale (9 / 10 * overlap) collisionNormal
      let pa := a.position - correction
      let pb := b.position + correction
      let relativeVelocity := b.velocity - a.velocity
      let impulse := Vec2.dot relativeVelocity collisionNormal
      if P.energyLossEnabled then
        let dampingFactor : K := 2 / 10
        let impulseVector := Vec2.scale (2 * dampingFactor * impulse) collisionNormal
        ({ a with position := pa, velocity := a.velocity + impulseVector },
         { b with position := pb, velocity := b.velocity - impulseVector })
      else
        ({ a with position := pa }, { b with position := pb })

/-- The body of the innermost loop of `updateCircles` (lines 274-276) for the
index pair `(i, j)`: the two circles are read from the store, and written back
when they collide. -/
def resolvePair (sqrt : K → K) (P : Params K) (i j : Nat) (cs : List (Circle K)) :
    List (Circle K) :=
  match cs[i]?, cs[j]? with
  | some a, some b =>
    if checkCollision sqrt P a b then
      let r := resolveCollision sqrt P a b
      (cs.set i r.1).set j r.2
    else cs
  | _, _ => cs

/-- The loop over `j` (line 273): `j` runs from `i + 1` up to `size() - 1`. -/
def innerLoop (sqrt : K → K) (P : Params K) (i : Nat) (cs : List (Circle K)) :
    List (Circle K) :=
  (List.range' (i + 1) (cs.length - (i + 1))).foldl (fun acc j => resolvePair sqrt P i j acc) cs

/-- One collision iteration (lines 272-278): all index pairs `i < j`. -/
def collisionPass (sqrt : K → K) (P : Params K) (cs : List (Circle K)) : List (Circle K) :=
  (List.range cs.length).foldl (fun acc i => innerLoop sqrt P i acc) cs

/-- The number of collision iterations (line 270). -/
def collisionIterations : Nat := 10

/-- The first loop of `updateCircles` (lines 237-267): every circle is
integrated and held inside the walls, independently of the others. -/
def integrateAll (P : Params K) (cs : List (Circle K)) : List (Circle K) :=
  cs.map (stepCircle P)

/-- The second part of `updateCircles` (lines 269-279): ten collision iterations. -/
def resolveAll (sqrt : K → K) (P : Params K) (cs : List (Circle K)) : List (Circle K) :=
  (collisionPass sqrt P)^[collisionIterations] cs

/-- `updateCircles` (lines 236-280). -/
def updateCircles (sqrt : K → K) (P : Params K) (cs : List (Circle K)) : List (Circle K) :=
  resolveAll sqrt P (integrateAll P cs)

/-! ## Predicates used by the statements -/

/-- The disk of the circle is inside the walls on both axes:
`position.x` and `position.y` are in `[-1 + radius, 1 - radius]`. -/
def InBox (P : Params K) (c : Circle K) : Prop :=
  (-1 + P.CIRCLE_RADIUS ≤ c.position.x ∧ c.position.x ≤ 1 - P.CIRCLE_RADIUS) ∧
  (-1 + P.CIRCLE_RADIUS ≤ c.position.y ∧ c.position.y ≤ 1 - P.CIRCLE_RADIUS)

/-- No two circles of the store collide (in the sense of `checkCollision`, the
earlier circle as first argument). -/
def NoOverlap (sqrt : K → K) (P : Params K) (cs : List (Circle K)) : Prop :=
  cs.Pairwise (fun a b => checkCollision sqrt P a b = false)

/-- The default parameter values of `Main.cpp` (lines 21-28): radius `0.05`,
gravity `-0.1`, time step `0.09`, bounce damping `1.0`, collision damping
`0.9`, friction `0.97`, energy loss enabled. -/
def defaultParams : Params K :=
  { CIRCLE_RADIUS := 1 / 20, GRAVITY := -1 / 10, TIME_STEP := 9 / 100, BOUNCE_DAMPING := 1,
    COLLISION_DAMPING := 9 / 10, FRICTION := 97 / 100, energyLossEnabled := true }

/-! ## Concrete circles used in the examples -/

/-- A circle at the origin moving to the right. -/
def sampleA : Circle K := ⟨⟨0, 0⟩, ⟨1 / 10, 0⟩, ⟨1, 0, 0⟩⟩

/-- A circle at `(3/50, 0)`: closer to `sampleA` than two default radii. -/
def sampleB : Circle K := ⟨⟨3 / 50, 0⟩, ⟨-1 / 10, 1 / 5⟩, ⟨0, 1, 0⟩⟩

/-- A circle at rest at the origin. -/
def restCircle : Circle K := ⟨⟨0, 0⟩, ⟨0, 0⟩, ⟨0, 0, 1⟩⟩

/-- A circle at rest at `(1/2, 1/2)`. -/
def farCircle : Circle K := ⟨⟨1 / 2, 1 / 2⟩, ⟨0, 0⟩, ⟨0, 1, 0⟩⟩

/-- A circle at rest on the right wall line (a click on the right edge of the
window spawns one there). -/
def edgeCircle : Circle K := ⟨⟨1, 0⟩, ⟨0, 0⟩, ⟨0, 0, 1⟩⟩

/-- A circle at rest, tangent to the left wall for the default radius. -/
def wallCircleA : Circle K := ⟨⟨-19 / 20, 0⟩, ⟨0, 0⟩, ⟨1, 0, 0⟩⟩

/-- A circle at rest `3/50` to the right of `wallCircleA`. -/
def wallCircleB : Circle K := ⟨⟨-89 / 100, 0⟩, ⟨0, 0⟩, ⟨0, 1, 0⟩⟩

/-- The default parameters with the radius set to `2`. -/
def wideParams : Params K :=
  { CIRCLE_RADIUS := 2, GRAVITY := -1 / 10, TIME_STEP := 9 / 100, BOUNCE_DAMPING := 1,
    COLLISION_DAMPING := 9 / 10, FRICTION := 97 / 100, energyLossEnabled := true }

/-- The default parameters with no gravity and energy loss disabled. -/
def restParams : Params K :=
  { CIRCLE_RADIUS := 1 / 20, GRAVITY := 0, TIME_STEP := 9 / 100, BOUNCE_DAMPING := 1,
    COLLISION_DAMPING := 9 / 10, FRICTION := 97 / 100, energyLossEnabled := false }

/-- The parameters of the scenario of the specification: gravity `-0.1`, time
step `0.09`, friction `1`, radius `0.05`; energy loss as given. -/
def scenarioParams (energyLoss : Bool) : Params K :=
  { CIRCLE_RADIUS := 1 / 20, GRAVITY := -1 / 10, TIME_STEP := 9 / 100, BOUNCE_DAMPING := 1,
    COLLISION_DAMPING := 9 / 10, FRICTION := 1, energyLossEnabled := energyLoss }

/-! ## The computed length and the Euclidean length -/

/-- The computed length of `v` is its Euclidean length: `glm::length v` is
non-negative and its square is `dot v v`.  In `float` this fails for a non-zero
`v` whose squared length underflows: the computed length is then `0`. -/
def ExactLength (sqrt : K → K) (v : Vec2 K) : Prop :=
  0 ≤ Vec2.length sqrt v ∧ Vec2.length sqrt v * Vec2.length sqrt v = Vec2.dot v v

/-- A square root with the underflow of `float` (binary32): a squared length of
at most `2^-150` is rounded to zero before the root is taken, and the root of
zero is zero; above that, the given root. -/
def underflowSqrt (sqrt : K → K) (x : K) : K :=
  if x ≤ (1 / 2) ^ 150 then 0 else sqrt x

/-- A circle at rest at `(2^-100, 0)`: its centre is not the origin, and the
square of its distance to the origin, `2^-200`, underflows in `float`. -/
def nearCircle : Circle K := ⟨⟨(1 / 2) ^ 100, 0⟩, ⟨0, 0⟩, ⟨0, 1, 0⟩⟩

end Kernel

end CollisionRestitution

namespace CollisionRestitution

section Lemmas

variable {K : Type} [LinearOrderedField K]

/-! ## Vector arithmetic -/

@[simp]
theorem Vec2.add_x (u v : Vec2 K) : (u + v).x = u.x + v.x := rfl
@[simp]
theorem Vec2.add_y (u v : Vec2 K) : (u + v).y = u.y + v.y := rfl
@[simp]
theorem Vec2.sub_x (u v : Vec2 K) : (u - v).x = u.x - v.x := rfl
@[simp]
theorem Vec2.sub_y (u v : Vec2 K) : (u - v).y = u.y - v.y := rfl
@[simp]
theorem Vec2.scale_x (k : K) (v : Vec2 K) : (Vec2.scale k v).x = k * v.x := rfl
@[simp]
theorem Vec2.scale_y (k : K) (v : Vec2 K) : (Vec2.scale k v).y = k * v.y := rfl
@[simp]
theorem Vec2.divScalar_x (v : Vec2 K) (d : K) : (Vec2.divScalar v d).x = v.x / d := rfl
@[simp]
theorem Vec2.divScalar_y (v : Vec2 K) (d : K) : (Vec2.divScalar v d).y = v.y / d := rfl

theorem Vec2.dot_self_nonneg (v : Vec2 K) : 0 ≤ Vec2.dot v v := by
  unfold Vec2.dot
  nlinarith [mul_self_nonneg v.x, mul_self_nonneg v.y]

theorem Vec2.dot_self_eq_zero {v : Vec2 K} (h : Vec2.dot v v = 0) : v.x = 0 ∧ v.y = 0 := by
  unfold Vec2.dot at h
  have hx := mul_self_nonneg v.x
  have hy := mul_self_nonneg v.y
  constructor
  · exact mul_self_eq_zero.1 (by linarith)
  · exact mul_self_eq_zero.1 (by linarith)

theorem Vec2.dot_sub_comm (p q : Vec2 K) : Vec2.dot (p - q) (p - q) = Vec2.dot (q - p) (q - p) := by
  simp only [Vec2.dot, Vec2.sub_x, Vec2.sub_y]
  ring

/-! ## The square root -/

theorem IsSqrt.nonneg {sqrt : K → K} (hs : IsSqrt sqrt) {x : K} (hx : 0 ≤ x) : 0 ≤ sqrt x :=
  (hs x hx).1

theorem IsSqrt.mul_self {sqrt : K → K} (hs : IsSqrt sqrt) {x : K} (hx : 0 ≤ x) :
    sqrt x * sqrt x = x :=
  (hs x hx).2

theorem IsSqrt.zero {sqrt : K → K} (hs : IsSqrt sqrt) : sqrt 0 = 0 :=
  mul_self_eq_zero.1 (hs.mul_self le_rfl)

theorem IsSqrt.eq_of_mul_self {sqrt : K → K} (hs : IsSqrt sqrt) {x y : K} (hy : 0 ≤ y)
    (h : x = y * y) : sqrt x = y := by
  have hx : 0 ≤ x := h ▸ mul_self_nonneg y
  have h1 := hs.nonneg hx
  have h2 := hs.mul_self hx
  rw [h] at h2
  rcases mul_self_eq_mul_self_iff.1 h2 with h3 | h3
  · rw [← h]  at h3
    exact h3
  · rw [← h] at h3
    have : y = 0 := by linarith
    rw [h3, this, neg_zero]

theorem IsSqrt.length_nonneg {sqrt : K → K} (hs : IsSqrt sqrt) (v : Vec2 K) :
    0 ≤ Vec2.length sqrt v :=
  hs.nonneg (Vec2.dot_self_nonneg v)

theorem IsSqrt.length_mul_self {sqrt : K → K} (hs : IsSqrt sqrt) (v : Vec2 K) :
    Vec2.length sqrt v * Vec2.length sqrt v = Vec2.dot v v :=
  hs.mul_self (Vec2.dot_self_nonneg v)

theorem IsSqrt.length_ne_zero {sqrt : K → K} (hs : IsSqrt sqrt) {p q : Vec2 K} (h : p ≠ q) :
    Vec2.length sqrt (q - p) ≠ 0 := by
  intro h0
  have h1 := hs.length_mul_self (q - p)
  rw [h0, mul_zero] at h1
  obtain ⟨hx, hy⟩ := Vec2.dot_self_eq_zero h1.symm
  apply h
  ext
  · simp only [Vec2.sub_x] at hx
    linarith
  · simp only [Vec2.sub_y] at hy
    linarith

theorem real_isSqrt : IsSqrt Real.sqrt :=
  fun _ hx => ⟨Real.sqrt_nonneg _, Real.mul_self_sqrt hx⟩

/-! ## `resolveCollision` -/

theorem resolveCollision_coincident (sqrt : K → K) (P : Params K) (a b : Circle K)
    (h : Vec2.length sqrt (b.position - a.position) = 0) :
    resolveCollision sqrt P a b = (a, b) := by
  simp only [resolveCollision, h, if_true]

theorem resolveCollision_position_fst (sqrt : K → K) (P : Params K) (a b : Circle K)
    (h : Vec2.length sqrt (b.position - a.position) ≠ 0) :
    (resolveCollision sqrt P a b).1.position =
      a.position - Vec2.scale (9 / 10 * (2 * P.CIRCLE_RADIUS - Vec2.length sqrt (b.position - a.position)))
        (Vec2.divScalar (b.position - a.position) (Vec2.length sqrt (b.position - a.position))) := by
  simp only [resolveCollision, if_neg h]
  split_ifs <;> rfl

theorem resolveCollision_position_snd (sqrt : K → K) (P : Params K) (a b : Circle K)
    (h : Vec2.length sqrt (b.position - a.position) ≠ 0) :
    (resolveCollision sqrt P a b).2.position =
      b.position + Vec2.scale (9 / 10 * (2 * P.CIRCLE_RADIUS - Vec2.length sqrt (b.position - a.position)))
        (Vec2.divScalar (b.position - a.position) (Vec2.length sqrt (b.position - a.position))) := by
  simp only [resolveCollision, if_neg h]
  split_ifs <;> rfl

theorem resolveCollision_color (sqrt : K → K) (P : Params K) (a b : Circle K) :
    (resolveCollision sqrt P a b).1.color = a.color ∧
      (resolveCollision sqrt P a b).2.color = b.color := by
  simp only [resolveCollision]
  split_ifs <;> exact ⟨rfl, rfl⟩

/-- The centre distance after `resolveCollision`, for distinct centres closer
than two radii: `d + 18/10 * (2 * radius - d)`. -/
theorem resolveCollision_length (sqrt : K → K) (hs : IsSqrt sqrt) (P : Params K) (a b : Circle K)
    (hne : a.position ≠ b.position)
    (hlt : Vec2.length sqrt (b.position - a.position) < 2 * P.CIRCLE_RADIUS) :
    Vec2.length sqrt ((resolveCollision sqrt P a b).2.position -
        (resolveCollision sqrt P a b).1.position) =
      Vec2.length sqrt (b.position - a.position) +
        18 / 10 * (2 * P.CIRCLE_RADIUS - Vec2.length sqrt (b.position - a.position)) := by
  have hd0 := hs.length_ne_zero hne
  have hdn := hs.length_nonneg (b.position - a.position)
  have hsq := hs.length_mul_self (b.position - a.position)
  rw [resolveCollision_position_fst sqrt P a b hd0, resolveCollision_position_snd sqrt P a b hd0]
  generalize Vec2.length sqrt (b.position - a.position) = d at *
  apply hs.eq_of_mul_self
  · linarith
  · simp only [Vec2.dot, Vec2.sub_x, Vec2.sub_y, Vec2.add_x, Vec2.add_y, Vec2.scale_x,
      Vec2.scale_y, Vec2.divScalar_x, Vec2.divScalar_y] at hsq ⊢
    field_simp
    have e : ∀ u : K, u ^ 2 = u * u := fun u => sq u
    nlinarith [hsq]

theorem sample_ne : (sampleA : Circle ℝ).position ≠ (sampleB : Circle ℝ).position := by
  intro h
  have h1 := congrArg Vec2.x h
  norm_num [sampleA, sampleB] at h1

theorem sample_length :
    Vec2.length Real.sqrt ((sampleB : Circle ℝ).position - (sampleA : Circle ℝ).position) = 3 / 50 := by
  apply real_isSqrt.eq_of_mul_self (by norm_num)
  norm_num [Vec2.dot, sampleA, sampleB]

/-! ## The collision loops -/

theorem foldl_invariant {α β : Type} (Inv : α → Prop) (f : α → β → α)
    (hf : ∀ acc x, Inv acc → Inv (f acc x)) (l : List β) (init : α) (h0 : Inv init) :
    Inv (l.foldl f init) := by
  induction l generalizing init with
  | nil => exact h0
  | cons x xs ih => exact ih _ (hf _ _ h0)

theorem foldl_fixed {α β : Type} (f : α → β → α) (l : List β) (init : α)
    (hf : ∀ x ∈ l, f init x = init) : l.foldl f init = init := by
  induction l with
  | nil => rfl
  | cons x xs ih =>
    rw [List.foldl_cons, hf x (List.mem_cons_self x xs)]
    exact ih fun y hy => hf y (List.mem_cons_of_mem x hy)

theorem resolvePair_colors (sqrt : K → K) (P : Params K) (i j : Nat) (cs : List (Circle K)) :
    (resolvePair sqrt P i j cs).map Circle.color = cs.map Circle.color := by
  unfold resolvePair
  split
  · rename_i a b ha hb
    split_ifs
    · have hc := resolveCollision_color sqrt P a b
      apply List.ext_getElem?
      intro n
      simp only [List.getElem?_map, List.getElem?_set]
      by_cases hj : j = n
      · subst hj
        simp only [if_true]
        split_ifs
        · simp [hb, hc.2]
        · rename_i hlt
          simp only [List.length_set] at hlt
          rw [List.getElem?_eq_none (by omega)]
      · simp only [if_neg hj]
        by_cases hi : i = n
        · subst hi
          simp only [if_true]
          split_ifs
          · simp [ha, hc.1]
          · rename_i hlt
            rw [List.getElem?_eq_none (by omega)]
        · simp only [if_neg hi]
    · rfl
  · rfl

theorem innerLoop_colors (sqrt : K → K) (P : Params K) (i : Nat) (cs : List (Circle K)) :
    (innerLoop sqrt P i cs).map Circle.color = cs.map Circle.color :=
  foldl_invariant (fun acc => acc.map Circle.color = cs.map Circle.color) _
    (fun acc j h => (resolvePair_colors sqrt P i j acc).trans h) _ cs rfl

theorem collisionPass_colors (sqrt : K → K) (P : Params K) (cs : List (Circle K)) :
    (collisionPass sqrt P cs).map Circle.color = cs.map Circle.color :=
  foldl_invariant (fun acc => acc.map Circle.color = cs.map Circle.color) _
    (fun acc i h => (innerLoop_colors sqrt P i acc).trans h) _ cs rfl

theorem resolveAll_colors (sqrt : K → K) (P : Params K) (cs : List (Circle K)) :
    (resolveAll sqrt P cs).map Circle.color = cs.map Circle.color := by
  unfold resolveAll
  generalize collisionIterations = n
  induction n generalizing cs with
  | zero => rfl
  | succ n ih =>
    rw [Function.iterate_succ_apply, ih, collisionPass_colors]

theorem applyGravity_color (P : Params K) (c : Circle K) :
    (applyGravity P c).color = c.color := by
  unfold applyGravity
  split_ifs <;> rfl

theorem applyFriction_color (P : Params K) (c : Circle K) :
    (applyFriction P c).color = c.color := by
  unfold applyFriction
  split_ifs <;> rfl

theorem wallLeft_color (P : Params K) (c : Circle K) : (wallLeft P c).color = c.color := by
  unfold wallLeft
  split_ifs <;> rfl

theorem wallRight_color (P : Params K) (c : Circle K) : (wallRight P c).color = c.color := by
  unfold wallRight
  split_ifs <;> rfl

theorem wallBottom_color (P : Params K) (c : Circle K) : (wallBottom P c).color = c.color := by
  unfold wallBottom
  split_ifs <;> rfl

theorem wallTop_color (P : Params K) (c : Circle K) : (wallTop P c).color = c.color := by
  unfold wallTop
  split_ifs <;> rfl

theorem stepCircle_color (P : Params K) (c : Circle K) : (stepCircle P c).color = c.color := by
  unfold stepCircle
  rw [wallTop_color, wallBottom_color, wallRight_color, wallLeft_color, applyFriction_color]
  unfold moveCircle
  exact applyGravity_color P c

theorem updateCircles_colors (sqrt : K → K) (P : Params K) (cs : List (Circle K)) :
    (updateCircles sqrt P cs).map Circle.color = cs.map Circle.color := by
  unfold updateCircles integrateAll
  rw [resolveAll_colors, List.map_map]
  apply List.map_congr_left
  intro c _
  exact stepCircle_color P c

theorem resolvePair_of_noOverlap (sqrt : K → K) (P : Params K) (cs : List (Circle K))
    (h : NoOverlap sqrt P cs) (i j : Nat) (hij : i < j) : resolvePair sqrt P i j cs = cs := by
  unfold resolvePair
  split
  · rename_i a b ha hb
    obtain ⟨hi, rfl⟩ := List.getElem?_eq_some.1 ha
    obtain ⟨hj, rfl⟩ := List.getElem?_eq_some.1 hb
    have hc : checkCollision sqrt P cs[i] cs[j] = false :=
      List.pairwise_iff_getElem.1 h i j hi hj hij
    simp [hc]
  · rfl

theorem innerLoop_of_noOverlap (sqrt : K → K) (P : Params K) (cs : List (Circle K))
    (h : NoOverlap sqrt P cs) (i : Nat) : innerLoop sqrt P i cs = cs := by
  unfold innerLoop
  apply foldl_fixed
  intro j hj
  have hj1 := (List.mem_range'_1.1 hj).1
  exact resolvePair_of_noOverlap sqrt P cs h i j (by omega)

theorem collisionPass_of_noOverlap (sqrt : K → K) (P : Params K) (cs : List (Circle K))
    (h : NoOverlap sqrt P cs) : collisionPass sqrt P cs = cs := by
  unfold collisionPass
  apply foldl_fixed
  intro i _
  exact innerLoop_of_noOverlap sqrt P cs h i

theorem resolveAll_of_noOverlap (sqrt : K → K) (P : Params K) (cs : List (Circle K))
    (h : NoOverlap sqrt P cs) : resolveAll sqrt P cs = cs :=
  Function.iterate_fixed (collisionPass_of_noOverlap sqrt P cs h) _

theorem collisionPass_pair (sqrt : K → K) (P : Params K) (a b : Circle K) :
    collisionPass sqrt P [a, b] =
      if checkCollision sqrt P a b then
        [(resolveCollision sqrt P a b).1, (resolveCollision sqrt P a b).2]
      else [a, b] := by
  have h1 : innerLoop sqrt P 0 [a, b] =
      if checkCollision sqrt P a b then
        [(resolveCollision sqrt P a b).1, (resolveCollision sqrt P a b).2]
      else [a, b] := by
    simp only [innerLoop, resolvePair, List.length_cons, List.length_nil, List.range']
    simp only [List.foldl_cons, List.foldl_nil]
    by_cases hc : checkCollision sqrt P a b = true <;> simp [hc]
  have h2 : ∀ cs : List (Circle K), cs.length = 2 → innerLoop sqrt P 1 cs = cs := by
    intro cs hcs
    simp [innerLoop, hcs]
  show List.foldl _ _ (List.range 2) = _
  rw [show List.range 2 = [0, 1] from rfl, List.foldl_cons, List.foldl_cons, List.foldl_nil, h1]
  apply h2
  split_ifs <;> rfl

/-! ## The integration and boundary phase -/

theorem walls_inBox (P : Params K) (hr : P.CIRCLE_RADIUS ≤ 1) (c : Circle K) :
    InBox P (wallTop P (wallBottom P (wallRight P (wallLeft P c)))) := by
  unfold InBox
  constructor
  · have hx : (wallTop P (wallBottom P (wallRight P (wallLeft P c)))).position.x =
        (wallRight P (wallLeft P c)).position.x := by
      unfold wallTop wallBottom
      split_ifs <;> rfl
    rw [hx]
    unfold wallRight wallLeft
    split_ifs <;> constructor <;> (try dsimp only) <;> linarith
  · generalize wallRight P (wallLeft P c) = d
    unfold wallTop wallBottom
    split_ifs <;> constructor <;> (try dsimp only) <;> linarith

theorem stepCircle_inBox (P : Params K) (hr : P.CIRCLE_RADIUS ≤ 1) (c : Circle K) :
    InBox P (stepCircle P c) :=
  walls_inBox P hr _

theorem walls_of_inBox (P : Params K) (c : Circle K) (h : InBox P c) :
    wallTop P (wallBottom P (wallRight P (wallLeft P c))) = c := by
  obtain ⟨⟨h1, h2⟩, h3, h4⟩ := h
  have e1 : wallLeft P c = c := by
    unfold wallLeft
    rw [if_neg (by linarith)]
  have e2 : wallRight P c = c := by
    unfold wallRight
    rw [if_neg (by linarith)]
  have e3 : wallBottom P c = c := by
    unfold wallBottom
    rw [if_neg (by linarith)]
  have e4 : wallTop P c = c := by
    unfold wallTop
    rw [if_neg (by linarith)]
  rw [e1, e2, e3, e4]

theorem integrate_eq (P : Params K) (c : Circle K) :
    applyFriction P (moveCircle P (applyGravity P c)) =
      { position := c.position +
          Vec2.scale P.TIME_STEP ⟨c.velocity.x, c.velocity.y + P.GRAVITY * P.TIME_STEP⟩,
        velocity :=
          if P.energyLossEnabled then
            Vec2.scale P.FRICTION ⟨c.velocity.x, c.velocity.y + P.GRAVITY * P.TIME_STEP⟩
          else ⟨c.velocity.x, c.velocity.y + P.GRAVITY * P.TIME_STEP⟩,
        color := c.color } := by
  have hg : applyGravity P c =
      { c with velocity := ⟨c.velocity.x, c.velocity.y + P.GRAVITY * P.TIME_STEP⟩ } := by
    unfold applyGravity
    by_cases h : P.GRAVITY = 0
    · simp [h]
    · simp [h]
  rw [hg]
  unfold applyFriction moveCircle
  split_ifs <;> rfl

theorem integrate_rest (P : Params K) (c : Circle K) (hg : P.GRAVITY = 0)
    (hv : c.velocity = ⟨0, 0⟩) : applyFriction P (moveCircle P (applyGravity P c)) = c := by
  rw [integrate_eq]
  obtain ⟨p, v, col⟩ := c
  simp only at hv
  subst hv
  have hp : p + Vec2.scale P.TIME_STEP ⟨0, 0 + P.GRAVITY * P.TIME_STEP⟩ = p := by
    ext <;> simp [hg]
  have hf : Vec2.scale P.FRICTION (⟨0, 0 + P.GRAVITY * P.TIME_STEP⟩ : Vec2 K) = ⟨0, 0⟩ := by
    ext <;> simp [hg]
  simp only [hp, hf]
  split_ifs
  · rfl
  · simp [hg]

theorem noOverlap_singleton (sqrt : K → K) (P : Params K) (c : Circle K) :
    NoOverlap sqrt P [c] :=
  List.pairwise_singleton _ _

theorem updateCircles_singleton (sqrt : K → K) (P : Params K) (c : Circle K) :
    updateCircles sqrt P [c] = [stepCircle P c] :=
  resolveAll_of_noOverlap sqrt P _ (noOverlap_singleton sqrt P _)

/-! ## Two circles -/

theorem checkCollision_eq_true (sqrt : K → K) (P : Params K) (a b : Circle K) :
    checkCollision sqrt P a b = true ↔
      Vec2.length sqrt (b.position - a.position) < 2 * P.CIRCLE_RADIUS := by
  simp only [checkCollision, decide_eq_true_eq, Vec2.length, Vec2.dot_sub_comm a.position]

theorem checkCollision_eq_false (sqrt : K → K) (P : Params K) (a b : Circle K) :
    checkCollision sqrt P a b = false ↔
      2 * P.CIRCLE_RADIUS ≤ Vec2.length sqrt (b.position - a.position) := by
  simp only [checkCollision, decide_eq_false_iff_not, not_lt, Vec2.length,
    Vec2.dot_sub_comm a.position]

theorem resolveAll_pair (sqrt : K → K) (hs : IsSqrt sqrt) (P : Params K) (a b : Circle K)
    (hne : a.position ≠ b.position) :
    resolveAll sqrt P [a, b] =
      if checkCollision sqrt P a b then
        [(resolveCollision sqrt P a b).1, (resolveCollision sqrt P a b).2]
      else [a, b] := by
  by_cases hc : checkCollision sqrt P a b = true
  · rw [if_pos hc]
    have hlt := (checkCollision_eq_true sqrt P a b).1 hc
    have hlen := resolveCollision_length sqrt hs P a b hne hlt
    have hno : NoOverlap sqrt P
        [(resolveCollision sqrt P a b).1, (resolveCollision sqrt P a b).2] := by
      unfold NoOverlap
      rw [List.pairwise_pair, checkCollision_eq_false, hlen]
      linarith
    show (collisionPass sqrt P)^[9 + 1] [a, b] = _
    rw [Function.iterate_succ_apply, collisionPass_pair, if_pos hc]
    exact Function.iterate_fixed (collisionPass_of_noOverlap sqrt P _ hno) _
  · rw [if_neg hc]
    apply resolveAll_of_noOverlap
    unfold NoOverlap
    rw [List.pairwise_pair]
    simpa using hc

theorem stepCircle_of_inBox (P : Params K) (c : Circle K)
    (h : InBox P (applyFriction P (moveCircle P (applyGravity P c)))) :
    stepCircle P c = applyFriction P (moveCircle P (applyGravity P c)) :=
  walls_of_inBox P _ h

theorem removeNear_eq_filter (sqrt : K → K) (P : Params K) (p : Vec2 K) (cs : List (Circle K)) :
    removeNear sqrt P p cs =
      cs.filter (fun c => decide (P.CIRCLE_RADIUS ≤ Vec2.distance sqrt c.position p)) := by
  induction cs with
  | nil => rfl
  | cons c cs ih =>
    unfold removeNear
    by_cases h : Vec2.distance sqrt c.position p < P.CIRCLE_RADIUS
    · rw [if_pos h, ih, List.filter_cons_of_neg (by simpa using h)]
    · rw [if_neg h, ih, List.filter_cons_of_pos (by simpa using h)]

theorem Vec2.length_sub_comm (sqrt : K → K) (p q : Vec2 K) :
    Vec2.length sqrt (p - q) = Vec2.length sqrt (q - p) := by
  unfold Vec2.length
  rw [Vec2.dot_sub_comm]

theorem stepCircle_eq_of_inside (P : Params K) (c : Circle K)
    (h : InBox P
      { position := c.position +
          Vec2.scale P.TIME_STEP ⟨c.velocity.x, c.velocity.y + P.GRAVITY * P.TIME_STEP⟩,
        velocity :=
          if P.energyLossEnabled then
            Vec2.scale P.FRICTION ⟨c.velocity.x, c.velocity.y + P.GRAVITY * P.TIME_STEP⟩
          else ⟨c.velocity.x, c.velocity.y + P.GRAVITY * P.TIME_STEP⟩,
        color := c.color }) :
    stepCircle P c =
      { position := c.position +
          Vec2.scale P.TIME_STEP ⟨c.velocity.x, c.velocity.y + P.GRAVITY * P.TIME_STEP⟩,
        velocity :=
          if P.energyLossEnabled then
            Vec2.scale P.FRICTION ⟨c.velocity.x, c.velocity.y + P.GRAVITY * P.TIME_STEP⟩
          else ⟨c.velocity.x, c.velocity.y + P.GRAVITY * P.TIME_STEP⟩,
        color := c.color } := by
  rw [stepCircle_of_inBox P c (by rw [integrate_eq]; exact h), integrate_eq]

/-- The two circles at the left wall after the integration phase: the positions
on the `x` axis are unchanged, `-19/20` and `-89/100`. -/
theorem wallCircles_step :
    (stepCircle (defaultParams : Params ℝ) wallCircleA).position = ⟨-19 / 20, -81 / 100000⟩ ∧
    (stepCircle (defaultParams : Params ℝ) wallCircleB).position = ⟨-89 / 100, -81 / 100000⟩ := by
  constructor
  · rw [stepCircle_eq_of_inside _ _ (by norm_num [InBox, defaultParams, wallCircleA])]
    ext <;> norm_num [defaultParams, wallCircleA]
  · rw [stepCircle_eq_of_inside _ _ (by norm_num [InBox, defaultParams, wallCircleB])]
    ext <;> norm_num [defaultParams, wallCircleB]

theorem wallCircles_length :
    Vec2.length Real.sqrt ((stepCircle (defaultParams : Params ℝ) wallCircleB).position -
      (stepCircle (defaultParams : Params ℝ) wallCircleA).position) = 3 / 50 := by
  rw [wallCircles_step.1, wallCircles_step.2]
  apply real_isSqrt.eq_of_mul_self (by norm_num)
  norm_num [Vec2.dot]

theorem wallCircles_update :
    (updateCircles Real.sqrt (defaultParams : Params ℝ) [wallCircleA, wallCircleB]).map
      (fun c => c.position.x) = [-493 / 500, -427 / 500] := by
  have hne : (stepCircle (defaultParams : Params ℝ) wallCircleA).position ≠
      (stepCircle (defaultParams : Params ℝ) wallCircleB).position := by
    rw [wallCircles_step.1, wallCircles_step.2]
    intro h
    have h1 := congrArg Vec2.x h
    norm_num at h1
  have hd0 : Vec2.length Real.sqrt ((stepCircle (defaultParams : Params ℝ) wallCircleB).position -
      (stepCircle (defaultParams : Params ℝ) wallCircleA).position) ≠ 0 := by
    rw [wallCircles_length]
    norm_num
  have hc : checkCollision Real.sqrt (defaultParams : Params ℝ)
      (stepCircle defaultParams wallCircleA) (stepCircle defaultParams wallCircleB) = true := by
    rw [checkCollision_eq_true, wallCircles_length]
    norm_num [defaultParams]
  show (resolveAll Real.sqrt defaultParams
    [stepCircle defaultParams wallCircleA, stepCircle defaultParams wallCircleB]).map _ = _
  rw [resolveAll_pair Real.sqrt real_isSqrt _ _ _ hne, if_pos hc]
  simp only [List.map_cons, List.map_nil]
  rw [resolveCollision_position_fst _ _ _ _ hd0, resolveCollision_position_snd _ _ _ _ hd0,
    wallCircles_length]
  simp only [Vec2.sub_x, Vec2.add_x, Vec2.scale_x, Vec2.divScalar_x, wallCircles_step.1,
    wallCircles_step.2]
  norm_num [defaultParams]

theorem sample_step :
    (stepCircle (defaultParams : Params ℝ) sampleA).position = ⟨9 / 1000, -81 / 100000⟩ ∧
    (stepCircle (defaultParams : Params ℝ) sampleB).position = ⟨51 / 1000, 1719 / 100000⟩ := by
  constructor
  · rw [stepCircle_eq_of_inside _ _ (by norm_num [InBox, defaultParams, sampleA])]
    ext <;> norm_num [defaultParams, sampleA]
  · rw [stepCircle_eq_of_inside _ _ (by norm_num [InBox, defaultParams, sampleB])]
    ext <;> norm_num [defaultParams, sampleB]

theorem sample_step_ne :
    (stepCircle (defaultParams : Params ℝ) sampleA).position ≠
      (stepCircle (defaultParams : Params ℝ) sampleB).position := by
  rw [sample_step.1, sample_step.2]
  intro h
  have h1 := congrArg Vec2.x h
  norm_num at h1

/-! ## Statements on the computed length -/

theorem IsSqrt.exactLength {sqrt : K → K} (hs : IsSqrt sqrt) (v : Vec2 K) :
    ExactLength sqrt v :=
  ⟨hs.length_nonneg v, hs.length_mul_self v⟩

theorem nonneg_root_unique {s t : K} (hs : 0 ≤ s) (ht : 0 ≤ t) (h : s * s = t * t) : s = t := by
  rcases mul_self_eq_mul_self_iff.1 h with h1 | h1
  · exact h1
  · exact le_antisymm (by linarith) (by linarith)

/-- The squared Euclidean distance of the centres after `resolveCollision`,
when the computed distance `d` is the Euclidean one and is not zero. -/
theorem resolveCollision_dot (sqrt : K → K) (P : Params K) (a b : Circle K)
    (hd0 : Vec2.length sqrt (b.position - a.position) ≠ 0)
    (hex : ExactLength sqrt (b.position - a.position)) :
    Vec2.dot ((resolveCollision sqrt P a b).2.position - (resolveCollision sqrt P a b).1.position)
        ((resolveCollision sqrt P a b).2.position - (resolveCollision sqrt P a b).1.position) =
      (Vec2.length sqrt (b.position - a.position) +
          18 / 10 * (2 * P.CIRCLE_RADIUS - Vec2.length sqrt (b.position - a.position))) *
        (Vec2.length sqrt (b.position - a.position) +
          18 / 10 * (2 * P.CIRCLE_RADIUS - Vec2.length sqrt (b.position - a.position))) := by
  have hsq := hex.2
  rw [resolveCollision_position_fst sqrt P a b hd0, resolveCollision_position_snd sqrt P a b hd0]
  generalize Vec2.length sqrt (b.position - a.position) = d at *
  simp only [Vec2.dot, Vec2.sub_x, Vec2.sub_y, Vec2.add_x, Vec2.add_y, Vec2.scale_x,
    Vec2.scale_y, Vec2.divScalar_x, Vec2.divScalar_y] at hsq ⊢
  field_simp
  nlinarith [hsq]

theorem resolveCollision_length_exact (sqrt : K → K) (P : Params K) (a b : Circle K)
    (hd0 : Vec2.length sqrt (b.position - a.position) ≠ 0)
    (hex : ExactLength sqrt (b.position - a.position))
    (hlt : Vec2.length sqrt (b.position - a.position) < 2 * P.CIRCLE_RADIUS)
    (hex2 : ExactLength sqrt ((resolveCollision sqrt P a b).2.position -
      (resolveCollision sqrt P a b).1.position)) :
    Vec2.length sqrt ((resolveCollision sqrt P a b).2.position -
        (resolveCollision sqrt P a b).1.position) =
      Vec2.length sqrt (b.position - a.position) +
        18 / 10 * (2 * P.CIRCLE_RADIUS - Vec2.length sqrt (b.position - a.position)) := by
  have hn := hex.1
  apply nonneg_root_unique hex2.1 (by linarith)
  rw [hex2.2]
  exact resolveCollision_dot sqrt P a b hd0 hex

theorem resolveAll_pair_exact (sqrt : K → K) (P : Params K) (a b : Circle K)
    (hd0 : Vec2.length sqrt (b.position - a.position) ≠ 0)
    (hex : ExactLength sqrt (b.position - a.position))
    (hex2 : ExactLength sqrt ((resolveCollision sqrt P a b).2.position -
      (resolveCollision sqrt P a b).1.position)) :
    resolveAll sqrt P [a, b] =
      if checkCollision sqrt P a b then
        [(resolveCollision sqrt P a b).1, (resolveCollision sqrt P a b).2]
      else [a, b] := by
  by_cases hc : checkCollision sqrt P a b = true
  · rw [if_pos hc]
    have hlt := (checkCollision_eq_true sqrt P a b).1 hc
    have hlen := resolveCollision_length_exact sqrt P a b hd0 hex hlt hex2
    have hno : NoOverlap sqrt P
        [(resolveCollision sqrt P a b).1, (resolveCollision sqrt P a b).2] := by
      unfold NoOverlap
      rw [List.pairwise_pair, checkCollision_eq_false, hlen]
      linarith
    show (collisionPass sqrt P)^[9 + 1] [a, b] = _
    rw [Function.iterate_succ_apply, collisionPass_pair, if_pos hc]
    exact Function.iterate_fixed (collisionPass_of_noOverlap sqrt P _ hno) _
  · rw [if_neg hc]
    apply resolveAll_of_noOverlap
    unfold NoOverlap
    rw [List.pairwise_pair]
    simpa using hc

/-- Two circles whose computed distance is zero are left where they are by the
ten collision passes. -/
theorem resolveAll_pair_of_length_zero (sqrt : K → K) (P : Params K) (a b : Circle K)
    (h : Vec2.length sqrt (b.position - a.position) = 0) :
    resolveAll sqrt P [a, b] = [a, b] := by
  apply Function.iterate_fixed
  rw [collisionPass_pair, resolveCollision_coincident sqrt P a b h]
  split_ifs <;> rfl

/-! ## The circles `2^-100` apart -/

theorem underflowSqrt_small (sqrt : K → K) {x : K} (h : x ≤ (1 / 2) ^ 150) :
    underflowSqrt sqrt x = 0 := by
  unfold underflowSqrt
  rw [if_pos h]

theorem near_step :
    (stepCircle (defaultParams : Params ℝ) restCircle).position = ⟨0, -81 / 100000⟩ ∧
    (stepCircle (defaultParams : Params ℝ) nearCircle).position =
      ⟨(1 / 2) ^ 100, -81 / 100000⟩ := by
  constructor
  · rw [stepCircle_eq_of_inside _ _ (by norm_num [InBox, defaultParams, restCircle])]
    ext <;> norm_num [defaultParams, restCircle]
  · rw [stepCircle_eq_of_inside _ _ (by norm_num [InBox, defaultParams, nearCircle])]
    ext <;> norm_num [defaultParams, nearCircle]

theorem near_step_ne :
    (stepCircle (defaultParams : Params ℝ) restCircle).position ≠
      (stepCircle (defaultParams : Params ℝ) nearCircle).position := by
  rw [near_step.1, near_step.2]
  intro h
  have h1 := congrArg Vec2.x h
  norm_num at h1

theorem near_step_length :
    Vec2.length (underflowSqrt Real.sqrt)
      ((stepCircle (defaultParams : Params ℝ) nearCircle).position -
        (stepCircle (defaultParams : Params ℝ) restCircle).position) = 0 := by
  rw [near_step.1, near_step.2]
  apply underflowSqrt_small
  norm_num [Vec2.dot]

theorem near_step_distance :
    Vec2.distance Real.sqrt (stepCircle (defaultParams : Params ℝ) restCircle).position
      (stepCircle (defaultParams : Params ℝ) nearCircle).position = (1 / 2) ^ 100 := by
  rw [near_step.1, near_step.2]
  apply real_isSqrt.eq_of_mul_self (by positivity)
  norm_num [Vec2.dot]

theorem near_ne : (sampleA : Circle ℝ).position ≠ (nearCircle : Circle ℝ).position := by
  intro h
  have h1 := congrArg Vec2.x h
  norm_num [sampleA, nearCircle] at h1

theorem near_length :
    Vec2.length (underflowSqrt Real.sqrt)
      ((nearCircle : Circle ℝ).position - (sampleA : Circle ℝ).position) = 0 := by
  apply underflowSqrt_small
  norm_num [Vec2.dot, sampleA, nearCircle]

end Lemmas

end CollisionRestitution

namespace CollisionRestitution

section Claims

variable {K : Type} [LinearOrderedField K]

/-- C5 (collision symmetry). For every pair of circles and every parameter set
(energy loss enabled or not, centres distinct or not), `resolveCollision` leaves
`a.position + b.position` and `a.velocity + b.velocity` as they were, and what
it adds to `a.position` (to `a.velocity`) is the opposite of what it adds to
`b.position` (to `b.velocity`). -/
theorem resolveCollision_symmetry (sqrt : K → K) (P : Params K) (a b : Circle K) :
    (resolveCollision sqrt P a b).1.position + (resolveCollision sqrt P a b).2.position =
        a.position + b.position ∧
    (resolveCollision sqrt P a b).1.velocity + (resolveCollision sqrt P a b).2.velocity =
        a.velocity + b.velocity ∧
    (resolveCollision sqrt P a b).1.position - a.position =
        Vec2.scale (-1) ((resolveCollision sqrt P a b).2.position - b.position) ∧
    (resolveCollision sqrt P a b).1.velocity - a.velocity =
        Vec2.scale (-1) ((resolveCollision sqrt P a b).2.velocity - b.velocity) := by
  simp only [resolveCollision]
  split_ifs <;> refine ⟨?_, ?_, ?_, ?_⟩ <;> ext <;> simp

/-- C6 (coincident centres). When `a.position = b.position` and the square root
of zero is zero, `resolveCollision` returns both circles unchanged (whatever the
velocities and the parameters); and for every pair of circles, the division
`collisionNormal /= distance` is never reached with a zero divisor: the checked
version of the function always returns, with the result of `resolveCollision`. -/
theorem resolveCollision_coincident_skipped (sqrt : K → K) (hs0 : sqrt 0 = 0) (P : Params K)
    (a b : Circle K) (h : a.position = b.position) :
    resolveCollision sqrt P a b = (a, b) ∧
    ∀ (Q : Params K) (c d : Circle K),
      resolveCollisionChecked sqrt Q c d = some (resolveCollision sqrt Q c d) := by
  constructor
  · apply resolveCollision_coincident
    simp [Vec2.length, Vec2.dot, h, hs0]
  · intro Q c d
    simp only [resolveCollisionChecked, resolveCollision, Vec2.divChecked]
    split_ifs <;> simp

/-- Witness of C6: two circles at `(1/4, 1/3)` with different velocities,
default parameters, over the reals. -/
theorem resolveCollision_coincident_skipped_witness :
    resolveCollision Real.sqrt (defaultParams : Params ℝ)
        ⟨⟨1 / 4, 1 / 3⟩, ⟨1, 0⟩, ⟨1, 0, 0⟩⟩ ⟨⟨1 / 4, 1 / 3⟩, ⟨-1, 2⟩, ⟨0, 1, 0⟩⟩ =
      (⟨⟨1 / 4, 1 / 3⟩, ⟨1, 0⟩, ⟨1, 0, 0⟩⟩, ⟨⟨1 / 4, 1 / 3⟩, ⟨-1, 2⟩, ⟨0, 1, 0⟩⟩) :=
  (resolveCollision_coincident_skipped Real.sqrt Real.sqrt_zero defaultParams
    ⟨⟨1 / 4, 1 / 3⟩, ⟨1, 0⟩, ⟨1, 0, 0⟩⟩ ⟨⟨1 / 4, 1 / 3⟩, ⟨-1, 2⟩, ⟨0, 1, 0⟩⟩ rfl).1

/-- C8 as stated fails: for `sampleA` and `sampleB` (centres `3/50` apart, radius
`1/20`), the centre distance after `resolveCollision` is `33/250`, which is not
`d + 9/10 * (2 * radius - d) = 12/125` and is not below `2 * radius = 1/10`. -/
theorem resolveCollision_under_correction_counterexample :
    (sampleA : Circle ℝ).position ≠ (sampleB : Circle ℝ).position ∧
    0 < Vec2.length Real.sqrt ((sampleB : Circle ℝ).position - (sampleA : Circle ℝ).position) ∧
    Vec2.length Real.sqrt ((sampleB : Circle ℝ).position - (sampleA : Circle ℝ).position) <
      2 * (defaultParams : Params ℝ).CIRCLE_RADIUS ∧
    Vec2.length Real.sqrt
        ((resolveCollision Real.sqrt (defaultParams : Params ℝ) sampleA sampleB).2.position -
          (resolveCollision Real.sqrt (defaultParams : Params ℝ) sampleA sampleB).1.position) =
      33 / 250 ∧
    Vec2.length Real.sqrt
        ((resolveCollision Real.sqrt (defaultParams : Params ℝ) sampleA sampleB).2.position -
          (resolveCollision Real.sqrt (defaultParams : Params ℝ) sampleA sampleB).1.position) ≠
      Vec2.length Real.sqrt ((sampleB : Circle ℝ).position - (sampleA : Circle ℝ).position) +
        9 / 10 * (2 * (defaultParams : Params ℝ).CIRCLE_RADIUS -
          Vec2.length Real.sqrt ((sampleB : Circle ℝ).position - (sampleA : Circle ℝ).position)) ∧
    ¬ Vec2.length Real.sqrt
        ((resolveCollision Real.sqrt (defaultParams : Params ℝ) sampleA sampleB).2.position -
          (resolveCollision Real.sqrt (defaultParams : Params ℝ) sampleA sampleB).1.position) <
      2 * (defaultParams : Params ℝ).CIRCLE_RADIUS := by
  have hlt : Vec2.length Real.sqrt ((sampleB : Circle ℝ).position - (sampleA : Circle ℝ).position) <
      2 * (defaultParams : Params ℝ).CIRCLE_RADIUS := by
    rw [sample_length]
    norm_num [defaultParams]
  have h := resolveCollision_length Real.sqrt real_isSqrt defaultParams sampleA sampleB sample_ne hlt
  rw [h, sample_length]
  refine ⟨sample_ne, by norm_num, by norm_num [defaultParams], by norm_num [defaultParams],
    by norm_num [defaultParams], by norm_num [defaultParams]⟩

/-- C7 (the step engine never writes the colour). For every store and every
parameter set, `updateCircles` returns a store of the same length, and the
colour at each index is the one it was before the call. -/
theorem updateCircles_preserves_color (sqrt : K → K) (P : Params K) (cs : List (Circle K)) :
    (updateCircles sqrt P cs).length = cs.length ∧
    ∀ i : Nat, ((updateCircles sqrt P cs)[i]?).map Circle.color = (cs[i]?).map Circle.color := by
  have h := updateCircles_colors sqrt P cs
  constructor
  · have h1 := congrArg List.length h
    simpa using h1
  · intro i
    have h1 := congrArg (fun l => l[i]?) h
    simpa using h1

/-- C2 (removal by proximity). For every store and every point, the right-click
branch returns the circles of the store whose distance to the point is at least
`CIRCLE_RADIUS`, each as often as it was there and in the same order; every
circle it returns was in the store and is not closer than `CIRCLE_RADIUS`.
With a square root that is one, radius `1/20` and circles at `(0, 0)` and
`(1/2, 1/2)`, removing near `(0, 0)` leaves only the second. -/
theorem removeNear_spec (sqrt : K → K) (P : Params K) (p : Vec2 K) (cs : List (Circle K)) :
    removeNear sqrt P p cs =
        cs.filter (fun c => decide (P.CIRCLE_RADIUS ≤ Vec2.distance sqrt c.position p)) ∧
    (∀ c ∈ removeNear sqrt P p cs,
        c ∈ cs ∧ ¬ Vec2.distance sqrt c.position p < P.CIRCLE_RADIUS) ∧
    (∀ c ∈ cs, P.CIRCLE_RADIUS ≤ Vec2.distance sqrt c.position p → c ∈ removeNear sqrt P p cs) ∧
    (IsSqrt sqrt → P.CIRCLE_RADIUS = 1 / 20 → ∀ c1 c2 : Circle K,
        c1.position = ⟨0, 0⟩ → c2.position = ⟨1 / 2, 1 / 2⟩ →
        removeNear sqrt P ⟨0, 0⟩ [c1, c2] = [c2]) := by
  refine ⟨removeNear_eq_filter sqrt P p cs, ?_, ?_, ?_⟩
  · intro c hc
    rw [removeNear_eq_filter, List.mem_filter] at hc
    exact ⟨hc.1, by simpa using hc.2⟩
  · intro c hc hd
    rw [removeNear_eq_filter, List.mem_filter]
    exact ⟨hc, by simpa using hd⟩
  · intro hs hr c1 c2 h1 h2
    have d1 : Vec2.distance sqrt c1.position ⟨0, 0⟩ = 0 := by
      rw [h1]
      simp [Vec2.distance, Vec2.length, Vec2.dot, hs.zero]
    have d2 : ¬ Vec2.distance sqrt c2.position ⟨0, 0⟩ < 1 / 20 := by
      rw [h2]
      intro hlt
      have hn := hs.length_nonneg ((⟨1 / 2, 1 / 2⟩ : Vec2 K) - ⟨0, 0⟩)
      have hm := hs.length_mul_self ((⟨1 / 2, 1 / 2⟩ : Vec2 K) - ⟨0, 0⟩)
      simp only [Vec2.distance] at hlt
      generalize Vec2.length sqrt ((⟨1 / 2, 1 / 2⟩ : Vec2 K) - ⟨0, 0⟩) = s at hlt hn hm
      simp only [Vec2.dot, Vec2.sub_x, Vec2.sub_y] at hm
      nlinarith
    simp only [removeNear, hr, d1, d2, if_false]
    norm_num

/-- Witness of C2: the example of the specification over the reals, with the
default parameters. -/
theorem removeNear_spec_witness :
    removeNear Real.sqrt (defaultParams : Params ℝ) ⟨0, 0⟩ [restCircle, farCircle] = [farCircle] :=
  (removeNear_spec Real.sqrt (defaultParams : Params ℝ) ⟨0, 0⟩ []).2.2.2 real_isSqrt rfl
    restCircle farCircle rfl rfl

/-- C3 (integration step). For a store holding one circle whose disk, after the
move, crosses none of the four walls, one call of `updateCircles` returns the
circle with position `position + TIME_STEP * (v.x, v.y + GRAVITY * TIME_STEP)`
and velocity `s * (v.x, v.y + GRAVITY * TIME_STEP)`, where `s` is `FRICTION` if
energy loss is enabled and `1` otherwise; the colour is kept. -/
theorem updateCircles_single_integration (sqrt : K → K) (P : Params K) (c : Circle K)
    (hx1 : -1 ≤ c.position.x + P.TIME_STEP * c.velocity.x - P.CIRCLE_RADIUS)
    (hx2 : c.position.x + P.TIME_STEP * c.velocity.x + P.CIRCLE_RADIUS ≤ 1)
    (hy1 : -1 ≤ c.position.y + P.TIME_STEP * (c.velocity.y + P.GRAVITY * P.TIME_STEP) -
      P.CIRCLE_RADIUS)
    (hy2 : c.position.y + P.TIME_STEP * (c.velocity.y + P.GRAVITY * P.TIME_STEP) +
      P.CIRCLE_RADIUS ≤ 1) :
    updateCircles sqrt P [c] =
      [{ position := c.position +
           Vec2.scale P.TIME_STEP ⟨c.velocity.x, c.velocity.y + P.GRAVITY * P.TIME_STEP⟩,
         velocity := Vec2.scale (if P.energyLossEnabled then P.FRICTION else 1)
           ⟨c.velocity.x, c.velocity.y + P.GRAVITY * P.TIME_STEP⟩,
         color := c.color }] := by
  rw [updateCircles_singleton, stepCircle_of_inBox, integrate_eq]
  · congr 2
    split_ifs
    · rfl
    · ext <;> simp
  · rw [integrate_eq]
    refine ⟨⟨?_, ?_⟩, ?_, ?_⟩ <;> simp only [Vec2.add_x, Vec2.add_y, Vec2.scale_x, Vec2.scale_y] <;>
      linarith

/-- Witness of C3, the scenario of the specification: one circle at `(0, 0)`
with velocity `(0, 0)`, gravity `-1/10`, time step `9/100`, friction `1`, radius
`1/20` ends with position `(0, -81/100000)` and velocity `(0, -9/1000)`, with
energy loss enabled and with energy loss disabled. -/
theorem updateCircles_single_integration_witness :
    updateCircles Real.sqrt (scenarioParams true : Params ℝ) [restCircle] =
        [⟨⟨0, -81 / 100000⟩, ⟨0, -9 / 1000⟩, ⟨0, 0, 1⟩⟩] ∧
    updateCircles Real.sqrt (scenarioParams false : Params ℝ) [restCircle] =
        [⟨⟨0, -81 / 100000⟩, ⟨0, -9 / 1000⟩, ⟨0, 0, 1⟩⟩] := by
  constructor
  · rw [updateCircles_single_integration Real.sqrt (scenarioParams true : Params ℝ) restCircle
      (by norm_num [scenarioParams, restCircle]) (by norm_num [scenarioParams, restCircle])
      (by norm_num [scenarioParams, restCircle]) (by norm_num [scenarioParams, restCircle])]
    congr 2
    · ext <;> norm_num [scenarioParams, restCircle]
    · ext <;> norm_num [scenarioParams, restCircle]
  · rw [updateCircles_single_integration Real.sqrt (scenarioParams false : Params ℝ) restCircle
      (by norm_num [scenarioParams, restCircle]) (by norm_num [scenarioParams, restCircle])
      (by norm_num [scenarioParams, restCircle]) (by norm_num [scenarioParams, restCircle])]
    congr 2
    · ext <;> norm_num [scenarioParams, restCircle]
    · ext <;> norm_num [scenarioParams, restCircle]

/-- C4 as stated fails: with no gravity, energy loss disabled and zero velocity,
a circle at `(1, 0)` (radius `1/20`) is at `(19/20, 0)` after one call of
`updateCircles`. -/
theorem updateCircles_rest_counterexample :
    (restParams : Params ℝ).GRAVITY = 0 ∧ (restParams : Params ℝ).energyLossEnabled = false ∧
    (edgeCircle : Circle ℝ).velocity = ⟨0, 0⟩ ∧
    (updateCircles Real.sqrt (restParams : Params ℝ))^[1] [edgeCircle] =
      [⟨⟨19 / 20, 0⟩, ⟨0, 0⟩, ⟨0, 0, 1⟩⟩] ∧
    ((updateCircles Real.sqrt (restParams : Params ℝ))^[1] [edgeCircle]).map Circle.position ≠
      [(edgeCircle : Circle ℝ).position] := by
  have h : (updateCircles Real.sqrt (restParams : Params ℝ))^[1] [edgeCircle] =
      [⟨⟨19 / 20, 0⟩, ⟨0, 0⟩, ⟨0, 0, 1⟩⟩] := by
    rw [Function.iterate_one, updateCircles_singleton]
    unfold stepCircle
    rw [integrate_rest _ _ rfl rfl]
    norm_num [wallTop, wallBottom, wallRight, wallLeft, restParams, edgeCircle]
  refine ⟨rfl, rfl, rfl, h, ?_⟩
  rw [h]
  norm_num [edgeCircle]

/-- C4 (amended). With gravity `0`, and friction `1` or energy loss disabled,
for a store holding one circle with zero velocity whose disk is inside the
walls (`position.x` and `position.y` in `[-1 + radius, 1 - radius]`), the store
after `n` calls of `updateCircles` is the initial store, for every `n`: the
position is the initial position (and the velocity is still zero). -/
theorem updateCircles_rest_fixed (sqrt : K → K) (P : Params K) (c : Circle K)
    (hg : P.GRAVITY = 0) (_hf : P.FRICTION = 1 ∨ P.energyLossEnabled = false)
    (hv : c.velocity = ⟨0, 0⟩) (hbox : InBox P c) (n : Nat) :
    (updateCircles sqrt P)^[n] [c] = [c] := by
  apply Function.iterate_fixed
  rw [updateCircles_singleton]
  unfold stepCircle
  rw [integrate_rest P c hg hv, walls_of_inBox P c hbox]

/-- Witness of C4 (amended): the circle at rest at the origin, no gravity,
energy loss disabled, seven calls. -/
theorem updateCircles_rest_fixed_witness :
    (updateCircles Real.sqrt (restParams : Params ℝ))^[7] [restCircle] = [restCircle] :=
  updateCircles_rest_fixed Real.sqrt restParams restCircle rfl (Or.inr rfl) rfl
    (by norm_num [InBox, restParams, restCircle]) 7

/-- C1 as stated fails, in two ways.  With the default parameters (radius
`1/20`, bounce damping `1`), two circles at rest at `(-19/20, 0)` and
`(-89/100, 0)` end one call of `updateCircles` at `x = -493/500` and
`x = -427/500`: the collision pass pushes the first one past
`-1 + radius = -19/20`.  With radius `2`, no position is in the (empty) range,
so the single circle of a store is not either. -/
theorem updateCircles_containment_counterexample :
    (0 < (defaultParams : Params ℝ).CIRCLE_RADIUS ∧ 0 ≤ (defaultParams : Params ℝ).BOUNCE_DAMPING ∧
      (updateCircles Real.sqrt (defaultParams : Params ℝ) [wallCircleA, wallCircleB]).map
        (fun c => c.position.x) = [-493 / 500, -427 / 500] ∧
      (-493 / 500 : ℝ) < -1 + (defaultParams : Params ℝ).CIRCLE_RADIUS ∧
      ¬ ∀ c ∈ updateCircles Real.sqrt (defaultParams : Params ℝ) [wallCircleA, wallCircleB],
        InBox defaultParams c) ∧
    (0 < (wideParams : Params ℝ).CIRCLE_RADIUS ∧ 0 ≤ (wideParams : Params ℝ).BOUNCE_DAMPING ∧
      ¬ ∀ c ∈ updateCircles Real.sqrt (wideParams : Params ℝ) [restCircle],
        InBox wideParams c) := by
  refine ⟨⟨by norm_num [defaultParams], by norm_num [defaultParams], wallCircles_update,
    by norm_num [defaultParams], ?_⟩, by norm_num [wideParams], by norm_num [wideParams], ?_⟩
  · intro h
    have hx : ∀ x ∈ (updateCircles Real.sqrt (defaultParams : Params ℝ)
        [wallCircleA, wallCircleB]).map (fun c => c.position.x),
        -1 + (defaultParams : Params ℝ).CIRCLE_RADIUS ≤ x := by
      intro x hx
      obtain ⟨c, hc, rfl⟩ := List.mem_map.1 hx
      exact (h c hc).1.1
    rw [wallCircles_update] at hx
    have h1 := hx (-493 / 500) (List.mem_cons_self _ _)
    norm_num [defaultParams] at h1
  · intro h
    have h1 := h (stepCircle wideParams restCircle)
      (by rw [updateCircles_singleton]; exact List.mem_singleton_self _)
    obtain ⟨⟨h2, h3⟩, _⟩ := h1
    have h4 : (wideParams : Params ℝ).CIRCLE_RADIUS = 2 := rfl
    rw [h4] at h2 h3
    linarith

/-- C1 (amended). For every parameter set with `0 < radius ≤ 1` and
`bounce_damping ≥ 0` and every store: at the end of the integration and
boundary phase of `updateCircles`, every circle has `position.x` and
`position.y` in `[-1 + radius, 1 - radius]`; and the same holds at the end of
`updateCircles` whenever no two circles overlap at the end of that phase (so
that the collision passes move nothing). -/
theorem updateCircles_containment (sqrt : K → K) (P : Params K) (cs : List (Circle K))
    (_hr0 : 0 < P.CIRCLE_RADIUS) (hr1 : P.CIRCLE_RADIUS ≤ 1) (_hb : 0 ≤ P.BOUNCE_DAMPING) :
    (∀ c ∈ integrateAll P cs, InBox P c) ∧
    (NoOverlap sqrt P (integrateAll P cs) → ∀ c ∈ updateCircles sqrt P cs, InBox P c) := by
  have h1 : ∀ c ∈ integrateAll P cs, InBox P c := by
    intro c hc
    obtain ⟨c0, _, rfl⟩ := List.mem_map.1 hc
    exact stepCircle_inBox P hr1 c0
  refine ⟨h1, fun hno c hc => h1 c ?_⟩
  unfold updateCircles at hc
  rwa [resolveAll_of_noOverlap sqrt P _ hno] at hc

/-- Witness of C1 (amended): a store holding `sampleA` alone, default
parameters, over the reals. -/
theorem updateCircles_containment_witness :
    InBox (defaultParams : Params ℝ) (stepCircle defaultParams sampleA) ∧
    updateCircles Real.sqrt (defaultParams : Params ℝ) [sampleA] =
      [stepCircle defaultParams sampleA] :=
  ⟨(updateCircles_containment Real.sqrt (defaultParams : Params ℝ) [sampleA]
      (by norm_num [defaultParams]) (by norm_num [defaultParams])
      (by norm_num [defaultParams])).2 (noOverlap_singleton _ _ _) _
      (by rw [updateCircles_singleton]; exact List.mem_singleton_self _),
    updateCircles_singleton _ _ _⟩

/-- C8 (amended). Let `d` be the centre distance that `resolveCollision`
computes, `glm::length (b.position - a.position)`.  If `d` is zero the pair is
left unchanged.  If `d` is the Euclidean distance and `0 < d < 2 * radius`, each
of the two circles is moved by `9/10 * overlap` along the collision normal
(`a` backwards, `b` forwards), `overlap = 2 * radius - d`: the pair is pushed
apart by `18/10 * overlap` in total, the Euclidean centre distance after the
call is `d + 18/10 * (2 * radius - d)` (its square is the squared length of the
new centre difference, and it is what `glm::length` returns where it is exact),
and that is strictly more than `2 * radius`. -/
theorem resolveCollision_positional_correction (sqrt : K → K) (P : Params K) (a b : Circle K) :
    (Vec2.length sqrt (b.position - a.position) = 0 → resolveCollision sqrt P a b = (a, b)) ∧
    (ExactLength sqrt (b.position - a.position) →
      0 < Vec2.length sqrt (b.position - a.position) →
      Vec2.length sqrt (b.position - a.position) < 2 * P.CIRCLE_RADIUS →
      (resolveCollision sqrt P a b).1.position =
        a.position - Vec2.scale
          (9 / 10 * (2 * P.CIRCLE_RADIUS - Vec2.length sqrt (b.position - a.position)))
          (Vec2.divScalar (b.position - a.position) (Vec2.length sqrt (b.position - a.position))) ∧
      (resolveCollision sqrt P a b).2.position =
        b.position + Vec2.scale
          (9 / 10 * (2 * P.CIRCLE_RADIUS - Vec2.length sqrt (b.position - a.position)))
          (Vec2.divScalar (b.position - a.position) (Vec2.length sqrt (b.position - a.position))) ∧
      Vec2.dot ((resolveCollision sqrt P a b).2.position - (resolveCollision sqrt P a b).1.position)
          ((resolveCollision sqrt P a b).2.position - (resolveCollision sqrt P a b).1.position) =
        (Vec2.length sqrt (b.position - a.position) +
            18 / 10 * (2 * P.CIRCLE_RADIUS - Vec2.length sqrt (b.position - a.position))) *
          (Vec2.length sqrt (b.position - a.position) +
            18 / 10 * (2 * P.CIRCLE_RADIUS - Vec2.length sqrt (b.position - a.position))) ∧
      2 * P.CIRCLE_RADIUS < Vec2.length sqrt (b.position - a.position) +
          18 / 10 * (2 * P.CIRCLE_RADIUS - Vec2.length sqrt (b.position - a.position)) ∧
      (ExactLength sqrt ((resolveCollision sqrt P a b).2.position -
          (resolveCollision sqrt P a b).1.position) →
        Vec2.length sqrt ((resolveCollision sqrt P a b).2.position -
            (resolveCollision sqrt P a b).1.position) =
          Vec2.length sqrt (b.position - a.position) +
            18 / 10 * (2 * P.CIRCLE_RADIUS - Vec2.length sqrt (b.position - a.position)))) := by
  refine ⟨resolveCollision_coincident sqrt P a b, fun hex hpos hlt => ?_⟩
  have hd0 : Vec2.length sqrt (b.position - a.position) ≠ 0 := ne_of_gt hpos
  refine ⟨resolveCollision_position_fst sqrt P a b hd0,
    resolveCollision_position_snd sqrt P a b hd0, resolveCollision_dot sqrt P a b hd0 hex,
    by linarith, resolveCollision_length_exact sqrt P a b hd0 hex hlt⟩

/-- Witness of C8 (amended): `sampleA` and `sampleB`, default parameters, over
the reals; the computed distance `3/50` is the Euclidean one, and the squared
centre distance after the call is the square of `3/50 + 18/10 * (1/10 - 3/50)`. -/
theorem resolveCollision_positional_correction_witness :
    Vec2.dot
        ((resolveCollision Real.sqrt (defaultParams : Params ℝ) sampleA sampleB).2.position -
          (resolveCollision Real.sqrt (defaultParams : Params ℝ) sampleA sampleB).1.position)
        ((resolveCollision Real.sqrt (defaultParams : Params ℝ) sampleA sampleB).2.position -
          (resolveCollision Real.sqrt (defaultParams : Params ℝ) sampleA sampleB).1.position) =
      (Vec2.length Real.sqrt ((sampleB : Circle ℝ).position - (sampleA : Circle ℝ).position) +
          18 / 10 * (2 * (defaultParams : Params ℝ).CIRCLE_RADIUS -
            Vec2.length Real.sqrt ((sampleB : Circle ℝ).position - (sampleA : Circle ℝ).position))) *
        (Vec2.length Real.sqrt ((sampleB : Circle ℝ).position - (sampleA : Circle ℝ).position) +
          18 / 10 * (2 * (defaultParams : Params ℝ).CIRCLE_RADIUS -
            Vec2.length Real.sqrt ((sampleB : Circle ℝ).position - (sampleA : Circle ℝ).position))) :=
  ((resolveCollision_positional_correction Real.sqrt (defaultParams : Params ℝ) sampleA sampleB).2
    (real_isSqrt.exactLength _) (by rw [sample_length]; norm_num)
    (by rw [sample_length]; norm_num [defaultParams])).2.2.1

/-- C10 as stated fails: with energy loss enabled, `sampleA` (at the origin,
velocity `(1/10, 0)`) and `nearCircle` (at rest at `(2^-100, 0)`) have distinct
centres, the unit normal from the first to the second is `(1, 0)`, and the
squared centre distance `2^-200` underflows, so the computed distance is `0`:
`resolveCollision` returns both circles unchanged, and the component of the
relative velocity along the normal is `-1/10` after the call as before, not
`2/10` of it. -/
theorem resolveCollision_relative_velocity_counterexample :
    (defaultParams : Params ℝ).energyLossEnabled = true ∧
    (sampleA : Circle ℝ).position ≠ (nearCircle : Circle ℝ).position ∧
    (nearCircle : Circle ℝ).position - (sampleA : Circle ℝ).position =
      Vec2.scale ((1 / 2) ^ 100) ⟨1, 0⟩ ∧
    Vec2.dot (⟨1, 0⟩ : Vec2 ℝ) ⟨1, 0⟩ = 1 ∧
    resolveCollision (underflowSqrt Real.sqrt) (defaultParams : Params ℝ) sampleA nearCircle =
      (sampleA, nearCircle) ∧
    Vec2.dot ((nearCircle : Circle ℝ).velocity - (sampleA : Circle ℝ).velocity) ⟨1, 0⟩ = -1 / 10 ∧
    Vec2.dot
        ((resolveCollision (underflowSqrt Real.sqrt) (defaultParams : Params ℝ)
            sampleA nearCircle).2.velocity -
          (resolveCollision (underflowSqrt Real.sqrt) (defaultParams : Params ℝ)
            sampleA nearCircle).1.velocity) ⟨1, 0⟩ ≠
      2 / 10 * Vec2.dot ((nearCircle : Circle ℝ).velocity - (sampleA : Circle ℝ).velocity)
        ⟨1, 0⟩ := by
  have h := resolveCollision_coincident (underflowSqrt Real.sqrt) (defaultParams : Params ℝ)
    sampleA nearCircle near_length
  refine ⟨rfl, near_ne, ?_, by norm_num [Vec2.dot], h, by norm_num [Vec2.dot, sampleA, nearCircle],
    ?_⟩
  · ext <;> norm_num [sampleA, nearCircle]
  · rw [h]
    norm_num [Vec2.dot, sampleA, nearCircle]

/-- C10 (amended). With energy loss enabled, let `d` be the centre distance that
`resolveCollision` computes and `n = (b.position - a.position) / d` its collision
normal.  If `d` is zero the pair is returned unchanged (so is the relative
velocity).  If `d` is not zero and is the Euclidean distance, then `n` is a unit
vector, the component of `b.velocity - a.velocity` along `n` after the call is
`2/10` of its value before, and its component along every direction `t`
perpendicular to `n` is unchanged. -/
theorem resolveCollision_relative_velocity (sqrt : K → K) (P : Params K)
    (a b : Circle K) (he : P.energyLossEnabled = true) :
    (Vec2.length sqrt (b.position - a.position) = 0 → resolveCollision sqrt P a b = (a, b)) ∧
    (Vec2.length sqrt (b.position - a.position) ≠ 0 →
      ExactLength sqrt (b.position - a.position) →
      Vec2.dot (Vec2.divScalar (b.position - a.position) (Vec2.length sqrt (b.position - a.position)))
          (Vec2.divScalar (b.position - a.position)
            (Vec2.length sqrt (b.position - a.position))) = 1 ∧
      Vec2.dot ((resolveCollision sqrt P a b).2.velocity - (resolveCollision sqrt P a b).1.velocity)
          (Vec2.divScalar (b.position - a.position) (Vec2.length sqrt (b.position - a.position))) =
        2 / 10 * Vec2.dot (b.velocity - a.velocity)
          (Vec2.divScalar (b.position - a.position)
            (Vec2.length sqrt (b.position - a.position))) ∧
      ∀ t : Vec2 K,
        Vec2.dot t (Vec2.divScalar (b.position - a.position)
          (Vec2.length sqrt (b.position - a.position))) = 0 →
        Vec2.dot ((resolveCollision sqrt P a b).2.velocity -
            (resolveCollision sqrt P a b).1.velocity) t =
          Vec2.dot (b.velocity - a.velocity) t) := by
  refine ⟨resolveCollision_coincident sqrt P a b, fun hd0 hex => ?_⟩
  have hsq := hex.2
  have hunit : Vec2.dot (Vec2.divScalar (b.position - a.position)
      (Vec2.length sqrt (b.position - a.position)))
      (Vec2.divScalar (b.position - a.position) (Vec2.length sqrt (b.position - a.position))) = 1 := by
    simp only [Vec2.dot, Vec2.divScalar_x, Vec2.divScalar_y, Vec2.sub_x, Vec2.sub_y] at hsq ⊢
    field_simp
    linarith
  refine ⟨hunit, ?_, ?_⟩
  · simp only [resolveCollision, if_neg hd0, he, if_true]
    generalize Vec2.divScalar (b.position - a.position)
      (Vec2.length sqrt (b.position - a.position)) = n at hunit ⊢
    simp only [Vec2.dot, Vec2.sub_x, Vec2.sub_y, Vec2.add_x, Vec2.add_y, Vec2.scale_x,
      Vec2.scale_y] at hunit ⊢
    linear_combination (-(8 / 10) * ((b.velocity.x - a.velocity.x) * n.x +
      (b.velocity.y - a.velocity.y) * n.y)) * hunit
  · intro t ht
    simp only [resolveCollision, if_neg hd0, he, if_true]
    generalize Vec2.divScalar (b.position - a.position)
      (Vec2.length sqrt (b.position - a.position)) = n at ht ⊢
    simp only [Vec2.dot, Vec2.sub_x, Vec2.sub_y, Vec2.add_x, Vec2.add_y, Vec2.scale_x,
      Vec2.scale_y] at ht ⊢
    linear_combination (-(8 / 10) * ((b.velocity.x - a.velocity.x) * n.x +
      (b.velocity.y - a.velocity.y) * n.y)) * ht

/-- Witness of C10 (amended): `sampleA` and `sampleB` with the default
parameters (energy loss enabled), over the reals; the computed distance `3/50`
is the Euclidean one. -/
theorem resolveCollision_relative_velocity_witness :
    Vec2.dot ((resolveCollision Real.sqrt (defaultParams : Params ℝ) sampleA sampleB).2.velocity -
        (resolveCollision Real.sqrt (defaultParams : Params ℝ) sampleA sampleB).1.velocity)
        (Vec2.divScalar ((sampleB : Circle ℝ).position - (sampleA : Circle ℝ).position)
          (Vec2.length Real.sqrt ((sampleB : Circle ℝ).position - (sampleA : Circle ℝ).position))) =
      2 / 10 * Vec2.dot ((sampleB : Circle ℝ).velocity - (sampleA : Circle ℝ).velocity)
        (Vec2.divScalar ((sampleB : Circle ℝ).position - (sampleA : Circle ℝ).position)
          (Vec2.length Real.sqrt ((sampleB : Circle ℝ).position - (sampleA : Circle ℝ).position))) :=
  ((resolveCollision_relative_velocity Real.sqrt (defaultParams : Params ℝ) sampleA sampleB rfl).2
    (by rw [sample_length]; norm_num) (real_isSqrt.exactLength _)).2.1

/-- C9 as stated fails: with the default parameters, two circles at rest at
`(0, 0)` and `(2^-100, 0)` have distinct centres at the end of the integration
and boundary phase, `(0, -81/100000)` and `(2^-100, -81/100000)`; the square of
their distance underflows, the computed distance is `0`, every call of
`resolveCollision` returns early, and `updateCircles` leaves them `2^-100`
apart, which is less than `2 * radius - 1/100`. -/
theorem updateCircles_pair_separation_counterexample :
    0 < (defaultParams : Params ℝ).CIRCLE_RADIUS ∧
    (stepCircle (defaultParams : Params ℝ) restCircle).position ≠
      (stepCircle (defaultParams : Params ℝ) nearCircle).position ∧
    updateCircles (underflowSqrt Real.sqrt) (defaultParams : Params ℝ) [restCircle, nearCircle] =
      [stepCircle defaultParams restCircle, stepCircle defaultParams nearCircle] ∧
    Vec2.distance Real.sqrt (stepCircle (defaultParams : Params ℝ) restCircle).position
      (stepCircle (defaultParams : Params ℝ) nearCircle).position = (1 / 2) ^ 100 ∧
    ¬ 2 * (defaultParams : Params ℝ).CIRCLE_RADIUS - 1 / 100 ≤
      Vec2.distance Real.sqrt (stepCircle (defaultParams : Params ℝ) restCircle).position
        (stepCircle (defaultParams : Params ℝ) nearCircle).position := by
  refine ⟨by norm_num [defaultParams], near_step_ne,
    resolveAll_pair_of_length_zero _ _ _ _ near_step_length, near_step_distance, ?_⟩
  rw [near_step_distance]
  norm_num [defaultParams]

/-- C9 (amended). For a store of two circles and every radius `> 0`, let `d` be
the centre distance that `glm::length` computes at the end of the integration
and boundary phase.  If `d` is zero, `updateCircles` leaves the two circles as
that phase left them.  If `d` is not zero and the computed distance is the
Euclidean one, there and for the pair that one `resolveCollision` returns, then
`updateCircles` returns two circles whose centre distance is at least
`2 * radius - eps` for every `eps > 0`. -/
theorem updateCircles_pair_separation (sqrt : K → K) (P : Params K) (c1 c2 : Circle K)
    (_hr : 0 < P.CIRCLE_RADIUS) :
    (Vec2.length sqrt ((stepCircle P c2).position - (stepCircle P c1).position) = 0 →
      updateCircles sqrt P [c1, c2] = [stepCircle P c1, stepCircle P c2]) ∧
    (Vec2.length sqrt ((stepCircle P c2).position - (stepCircle P c1).position) ≠ 0 →
      ExactLength sqrt ((stepCircle P c2).position - (stepCircle P c1).position) →
      ExactLength sqrt
        ((resolveCollision sqrt P (stepCircle P c1) (stepCircle P c2)).2.position -
          (resolveCollision sqrt P (stepCircle P c1) (stepCircle P c2)).1.position) →
      ∃ a b : Circle K, updateCircles sqrt P [c1, c2] = [a, b] ∧
        ∀ eps : K, 0 < eps →
          2 * P.CIRCLE_RADIUS - eps ≤ Vec2.distance sqrt a.position b.position) := by
  refine ⟨resolveAll_pair_of_length_zero sqrt P _ _, fun hd0 hex hex2 => ?_⟩
  have hu : updateCircles sqrt P [c1, c2] =
      if checkCollision sqrt P (stepCircle P c1) (stepCircle P c2) then
        [(resolveCollision sqrt P (stepCircle P c1) (stepCircle P c2)).1,
          (resolveCollision sqrt P (stepCircle P c1) (stepCircle P c2)).2]
      else [stepCircle P c1, stepCircle P c2] :=
    resolveAll_pair_exact sqrt P _ _ hd0 hex hex2
  by_cases hc : checkCollision sqrt P (stepCircle P c1) (stepCircle P c2) = true
  · rw [if_pos hc] at hu
    refine ⟨_, _, hu, fun eps heps => ?_⟩
    have hlt := (checkCollision_eq_true sqrt P _ _).1 hc
    have hlen := resolveCollision_length_exact sqrt P _ _ hd0 hex hlt hex2
    unfold Vec2.distance
    rw [Vec2.length_sub_comm, hlen]
    linarith
  · rw [if_neg hc] at hu
    refine ⟨_, _, hu, fun eps heps => ?_⟩
    have hge := (checkCollision_eq_false sqrt P _ _).1 (by simpa using hc)
    unfold Vec2.distance
    rw [Vec2.length_sub_comm]
    linarith

/-- Witness of C9 (amended): `sampleA` and `sampleB`, default parameters, over
the reals, with `eps = 1/1000`. -/
theorem updateCircles_pair_separation_witness :
    ∃ a b : Circle ℝ, updateCircles Real.sqrt (defaultParams : Params ℝ) [sampleA, sampleB] = [a, b] ∧
      2 * (defaultParams : Params ℝ).CIRCLE_RADIUS - 1 / 1000 ≤
        Vec2.distance Real.sqrt a.position b.position := by
  obtain ⟨a, b, h1, h2⟩ := (updateCircles_pair_separation Real.sqrt
    (defaultParams : Params ℝ) sampleA sampleB (by norm_num [defaultParams])).2
    (real_isSqrt.length_ne_zero sample_step_ne) (real_isSqrt.exactLength _)
    (real_isSqrt.exactLength _)
  exact ⟨a, b, h1, h2 (1 / 1000) (by norm_num)⟩

end Claims

end CollisionRestitution
